import Mathlib

/-!
Verification of the frenetic stackful-coroutine library (src/src/lib.rs)
against its specification.

The machine-context arrays (`parent`, `child`) and the `jump_*` primitives
cannot be expressed arithmetically; their observable effect is which side of
which suspension point runs next.  We therefore embed the library as an
operational model:

* `Context Y R` is `Context<Y, R>` from lib.rs (lines 89-95) restricted to its
  semantically relevant fields: the transfer slot `arg` and the `canceled`
  flag.  The two machine-context arrays are represented by `BodyPos`.
* `BodyProg Y R` is the body closure, written as a program: each call to
  `Control::r#yield` carries the continuation run when yield returns `Ok`
  and the continuation run when it returns `Err(Canceled)`; the body finishes
  either by `Control::done` (`doneP`) or by returning `Err(Canceled)` itself
  (`errP`), the only two ways a closure of type
  `FnMut(Control) -> Result<Finished<R>, Canceled>` can return.
* `BodyPos Y R` is where the body-side control is parked: `fresh` (the
  trampoline `callback` is paused at its initial `jump_swap`, lib.rs 234-237,
  and will invoke the closure when next entered), `suspended ok canc` (the
  body is paused inside `Control::r#yield` at the `jump_swap` of lib.rs
  354-357), or `terminated` (the trampoline executed its final `jump_into`,
  lib.rs 258; the body stack is dead and must never be entered again).
* `Coroutine.resume`, `Coroutine.drop` and `Coroutine.new` are the driver-side
  operations, with `none` modelling a panic (or, for entering a `terminated`
  body, the undefined behavior of jumping into a dead context).
-/

namespace Frenetic

/-- GeneratorState from lib.rs lines 167-182: the two observable outcomes of a
resume. -/
inductive GeneratorState (Y R : Type) where
  | Yielded : Y → GeneratorState Y R
  | Complete : R → GeneratorState Y R
  deriving DecidableEq

/-- Finished from lib.rs line 184: the completion token produced by
Control::done. -/
structure Finished (R : Type) where
  val : R
  deriving DecidableEq

/-- Canceled from lib.rs line 186: the cooperative-cancellation error. -/
structure Canceled where
  deriving DecidableEq

/-- The semantically relevant fields of Context from lib.rs lines 89-95: the
single transfer slot `arg` and the monotonic `canceled` flag. -/
structure Context (Y R : Type) where
  arg : Option (GeneratorState Y R)
  canceled : Bool
  deriving DecidableEq

variable {Y R : Type}

/-- The body closure as a program.  `yieldP v ok canc` is a call
`c.r#yield(v)` whose `Ok` result continues as `ok` and whose `Err(Canceled)`
result continues as `canc`; `doneP r` is `c.done(r)`; `errP` is the body
returning `Err(Canceled)` directly without calling done. -/
inductive BodyProg (Y R : Type) where
  | yieldP : Y → BodyProg Y R → BodyProg Y R → BodyProg Y R
  | doneP : R → BodyProg Y R
  | errP : BodyProg Y R
  deriving DecidableEq

/-- Where the body-side machine context is parked (see the module docstring). -/
inductive BodyPos (Y R : Type) where
  | fresh : BodyProg Y R → BodyPos Y R
  | suspended : BodyProg Y R → BodyProg Y R → BodyPos Y R
  | terminated : BodyPos Y R
  deriving DecidableEq

/-- First half of Control::r#yield, lib.rs lines 344-357: if `canceled` is
already set, fail with Canceled without touching the transfer slot and without
any context switch; otherwise write `Yielded(arg)` into the transfer slot (the
switch to the driver follows). -/
def Control.yieldEnter (c : Context Y R) (v : Y) : Except Canceled (Context Y R) :=
  if c.canceled then .error ⟨⟩
  else .ok { c with arg := some (.Yielded v) }

/-- Second half of Control::r#yield, lib.rs lines 358-369: after the driver
switches back into the body, re-read `canceled` (volatile) and return
`Err(Canceled)` exactly when it is set, else `Ok` with the handle. -/
def Control.yieldResume (c : Context Y R) : Except Canceled Unit :=
  if c.canceled then .error ⟨⟩ else .ok ()

/-- Control::done, lib.rs lines 372-375: wrap the value in a completion token.
Generic over the error type `E` and infallible: it constructs `Ok` directly
and performs no context switch. -/
def Control.done (E : Type) (arg : R) : Except E (Finished R) :=
  .ok ⟨arg⟩

/-- Run the body program until it suspends inside a yield or terminates.
A `yieldP` follows Control::r#yield: if `yieldEnter` fails (flag already set)
the body continues immediately with the `canc` continuation, no switch; else
the slot now holds `Yielded v` and the body parks at `suspended ok canc`.
A `doneP r` is the closure returning `Ok(Finished r)`: the trampoline
(lib.rs 248-255) writes `Complete r` into the slot and jumps away forever.
An `errP` is the closure returning `Err(Canceled)`: the trampoline writes
nothing and jumps away forever. -/
def runBody : Context Y R → BodyProg Y R → Context Y R × BodyPos Y R
  | c, .yieldP v ok canc =>
    match Control.yieldEnter c v with
    | .error _ => runBody c canc
    | .ok c₂ => (c₂, .suspended ok canc)
  | c, .doneP r => ({ c with arg := some (.Complete r) }, .terminated)
  | c, .errP => (c, .terminated)

/-- One entry into the body side via `jump_swap`: from `fresh` the trampoline
invokes the closure (lib.rs 244-258); from `suspended` the pending yield's
`jump_swap` returns and `yieldResume` picks the Ok or the Err continuation;
entering a `terminated` body is jumping into a dead context (`none`). -/
def enterBody (c : Context Y R) : BodyPos Y R → Option (Context Y R × BodyPos Y R)
  | .fresh prog => some (runBody c prog)
  | .suspended ok canc =>
    match Control.yieldResume c with
    | .error _ => some (runBody c canc)
    | .ok _ => some (runBody c ok)
  | .terminated => none

/-- Driver-side view of a Coroutine (lib.rs 188-196): `ctx = none` is the
Finished state produced by `self.ctx.take()` in resume. -/
structure CoroState (Y R : Type) where
  ctx : Option (Context Y R)
  body : BodyPos Y R
  deriving DecidableEq

/-- Generator::resume for Coroutine, lib.rs lines 387-410: panic if the
context was dropped (`none`); else clear the transfer slot, swap into the
body, then unwrap the slot (panic if the body wrote nothing, i.e. returned
`Err` without done); on `Complete` drop the context so any later resume
panics. -/
def Coroutine.resume (s : CoroState Y R) :
    Option (GeneratorState Y R × CoroState Y R) :=
  match s.ctx with
  | none => none
  | some c =>
    match enterBody { c with arg := none } s.body with
    | none => none
    | some (c₂, pos) =>
      match c₂.arg with
      | none => none
      | some (.Yielded y) => some (.Yielded y, ⟨some { c₂ with arg := none }, pos⟩)
      | some (.Complete r) => some (.Complete r, ⟨none, pos⟩)

/-- Drop for Coroutine, lib.rs lines 417-426: if the context is still present,
set `canceled` and swap into the body one final time.  Returns the final body
position; `none` models the crash of entering a dead context. -/
def Coroutine.drop (s : CoroState Y R) : Option (BodyPos Y R) :=
  match s.ctx with
  | none => some s.body
  | some c =>
    match enterBody { c with canceled := true } s.body with
    | none => none
    | some (_, pos) => some pos

/-- STACK_ALIGNMENT from lib.rs line 74. -/
def STACK_ALIGNMENT : Nat := 16

/-- STACK_MINIMUM from lib.rs line 75. -/
def STACK_MINIMUM : Nat := 4096

/-- Coroutine::new, lib.rs lines 278-330: the `assert!(stack.len() >=
STACK_MINIMUM)` on line 279 runs before anything else, in particular before
any context switch; on success the context is fresh (slot empty, not
canceled) and the trampoline is parked at its initial swap. -/
def Coroutine.new (stackLen : Nat) (prog : BodyProg Y R) :
    Option (CoroState Y R) :=
  if stackLen < STACK_MINIMUM then none
  else some ⟨some ⟨none, false⟩, .fresh prog⟩

/-- Rust's `align_offset` for a byte pointer at address `p`: the distance to
the next address that is a multiple of `a`. -/
def alignOffset (p a : Nat) : Nat := (a - p % a) % a

/-- The aligned stack-top computation in Coroutine::new, lib.rs lines 296-308:
on upward-growing stacks, round the buffer base up to the alignment; on
downward-growing stacks, take the last byte of the buffer and, when it is not
aligned, step back one alignment unit and round up. -/
def stackTop (growsUp : Bool) (base len : Nat) : Nat :=
  if growsUp then
    base + alignOffset base STACK_ALIGNMENT
  else
    let top := base + len - 1
    if alignOffset top STACK_ALIGNMENT ≠ 0 then
      let top2 := top - STACK_ALIGNMENT
      top2 + alignOffset top2 STACK_ALIGNMENT
    else
      top

/-- Run `n` driver resume calls from state `s`, collecting the returned
values; the trace stops at the first panic. -/
def runTrace : CoroState Y R → Nat → List (GeneratorState Y R)
  | _, 0 => []
  | s, n + 1 =>
    match Coroutine.resume s with
    | none => []
    | some (v, s₂) => v :: runTrace s₂ n

/-- Lists of the shape Yielded, ..., Yielded, then at most one arbitrary last
element (which is the only position where a Complete may sit). -/
inductive YieldedThenComplete : List (GeneratorState Y R) → Prop where
  | nil : YieldedThenComplete []
  | single (v : GeneratorState Y R) : YieldedThenComplete [v]
  | cons (y : Y) (l : List (GeneratorState Y R)) :
      YieldedThenComplete l → YieldedThenComplete (.Yielded y :: l)

/-- Helper: once `canceled` is set, no yield can suspend, so the body always
runs to its terminal one-way transfer. -/
theorem runBody_canceled_terminated (prog : BodyProg Y R) :
    ∀ c : Context Y R, c.canceled = true → (runBody c prog).2 = .terminated := by
  induction prog with
  | yieldP v ok canc ihok ihcanc =>
    intro c hc
    simp only [runBody, Control.yieldEnter, hc, if_true]
    exact ihcanc c hc
  | doneP r => intro c _; rfl
  | errP => intro c _; rfl

/-- Helper: a resume that returns Complete leaves the coroutine with no
context. -/
theorem resume_complete_ctx_eq_none {s s₂ : CoroState Y R} {r : R}
    (h : Coroutine.resume s = some (.Complete r, s₂)) : s₂.ctx = none := by
  unfold Coroutine.resume at h
  rcases s with ⟨ctx, body⟩
  rcases ctx with _ | c
  · simp at h
  · simp only at h
    rcases henter : enterBody { c with arg := none } body with _ | ⟨c₂, pos⟩
    · rw [henter] at h; simp at h
    · rw [henter] at h
      simp only at h
      rcases harg : c₂.arg with _ | st
      · rw [harg] at h; simp at h
      · rw [harg] at h
        cases st with
        | Yielded y => simp at h
        | Complete r₂ =>
          simp only [Option.some.injEq, Prod.mk.injEq] at h
          rw [← h.2]

/-- Helper: a coroutine without a context panics on resume. -/
theorem resume_none_of_ctx_none {s : CoroState Y R} (h : s.ctx = none) :
    Coroutine.resume s = none := by
  unfold Coroutine.resume
  rw [h]

/-- C1: for every Coroutine, resume returns Complete at most once: a resume
that returns Complete leaves the coroutine Finished (its internal context has
been dropped, `ctx = none`), and every later resume call panics (`none`). -/
theorem resume_complete_single (s s₂ : CoroState Y R) (r : R)
    (h : Coroutine.resume s = some (.Complete r, s₂)) :
    s₂.ctx = none ∧ Coroutine.resume s₂ = none :=
  ⟨resume_complete_ctx_eq_none h,
   resume_none_of_ctx_none (resume_complete_ctx_eq_none h)⟩

/-- Witness for C1 at a concrete coroutine whose body completes at once. -/
theorem resume_complete_single_witness :
    (⟨none, BodyPos.terminated⟩ : CoroState Nat Nat).ctx = none ∧
      Coroutine.resume (⟨none, BodyPos.terminated⟩ : CoroState Nat Nat) = none :=
  resume_complete_single ⟨some ⟨none, false⟩, .fresh (.doneP 0)⟩
    ⟨none, .terminated⟩ 0 rfl

/-- C2: Coroutine construction with a stack buffer shorter than STACK_MINIMUM
(4096) panics — and the assert sits before any context switch in
Coroutine::new — while for every length of at least 4096 the size check
passes and construction succeeds. -/
theorem new_stack_size_check (len : Nat) (prog : BodyProg Y R) :
    (len < STACK_MINIMUM → Coroutine.new len prog = none) ∧
    (STACK_MINIMUM ≤ len → (Coroutine.new len prog).isSome = true) := by
  constructor
  · intro h
    simp [Coroutine.new, h]
  · intro h
    simp [Coroutine.new, Nat.not_lt.mpr h]

/-- Witness for C2 at lengths 4095 and 4096. -/
theorem new_stack_size_check_witness :
    Coroutine.new 4095 (BodyProg.errP : BodyProg Nat Nat) = none ∧
      (Coroutine.new 4096 (BodyProg.errP : BodyProg Nat Nat)).isSome = true :=
  ⟨(new_stack_size_check 4095 .errP).1 (by decide),
   (new_stack_size_check 4096 .errP).2 (by decide)⟩

/-- Helper: once resume panics, the trace from that state is empty. -/
theorem runTrace_nil_of_resume_none {s : CoroState Y R}
    (h : Coroutine.resume s = none) : ∀ n, runTrace s n = [] := by
  intro n
  cases n with
  | zero => rfl
  | succ m => simp [runTrace, h]

/-- C3: for every coroutine state and every number of driver resume calls,
the sequence of returned values is zero or more Yielded values followed by at
most one final value, so a Complete can only sit last and nothing follows
it. -/
theorem resume_trace_yielded_then_complete (s : CoroState Y R) (n : Nat) :
    YieldedThenComplete (runTrace s n) := by
  induction n generalizing s with
  | zero => exact .nil
  | succ m ih =>
    rcases hres : Coroutine.resume s with _ | ⟨v, s₂⟩
    · simp only [runTrace, hres]
      exact .nil
    · simp only [runTrace, hres]
      cases v with
      | Yielded y => exact .cons y _ (ih s₂)
      | Complete r =>
        have hnone : Coroutine.resume s₂ = none :=
          resume_none_of_ctx_none (resume_complete_ctx_eq_none hres)
        rw [runTrace_nil_of_resume_none hnone m]
        exact .single _

/-- C4: value fidelity.  A body whose next action is `yield v` makes the
driving resume return exactly `Yielded v`, and a body whose next action is
`done r` makes it return exactly `Complete r`; the value travels through the
context's single transfer slot (`arg`), which resume clears on entry and
takes on exit.  Covers both a fresh body and one suspended at a yield, for
any prior slot content `a`. -/
theorem resume_value_fidelity (a : Option (GeneratorState Y R)) (v : Y) (r : R)
    (ok canc other : BodyProg Y R) :
    Coroutine.resume ⟨some ⟨a, false⟩, .fresh (.yieldP v ok canc)⟩
        = some (.Yielded v, ⟨some ⟨none, false⟩, .suspended ok canc⟩) ∧
    Coroutine.resume ⟨some ⟨a, false⟩, .fresh (.doneP r)⟩
        = some (.Complete r, ⟨none, .terminated⟩) ∧
    Coroutine.resume ⟨some ⟨a, false⟩, .suspended (.yieldP v ok canc) other⟩
        = some (.Yielded v, ⟨some ⟨none, false⟩, .suspended ok canc⟩) ∧
    Coroutine.resume ⟨some ⟨a, false⟩, .suspended (.doneP r) other⟩
        = some (.Complete r, ⟨none, .terminated⟩) :=
  ⟨rfl, rfl, rfl, rfl⟩

/-- C5: yield fails only with Canceled.  If the flag is set at entry, yield
returns the error at once, the transfer slot is untouched and the body
continues with its error continuation without any context switch; otherwise
yield writes `Yielded v` into the slot and suspends toward the driver, and on
resumption it returns the error exactly when the flag has been set, else Ok
(the body continues with its Ok continuation). -/
theorem yield_canceled_semantics (c : Context Y R) (v : Y)
    (ok canc : BodyProg Y R) :
    (c.canceled = true →
      Control.yieldEnter c v = .error ⟨⟩ ∧
      runBody c (.yieldP v ok canc) = runBody c canc) ∧
    (c.canceled = false →
      Control.yieldEnter c v = .ok { c with arg := some (.Yielded v) } ∧
      runBody c (.yieldP v ok canc)
        = ({ c with arg := some (.Yielded v) }, .suspended ok canc)) ∧
    (c.canceled = true → enterBody c (.suspended ok canc) = some (runBody c canc)) ∧
    (c.canceled = false → enterBody c (.suspended ok canc) = some (runBody c ok)) := by
  refine ⟨fun h => ⟨?_, ?_⟩, fun h => ⟨?_, ?_⟩, fun h => ?_, fun h => ?_⟩ <;>
    simp [Control.yieldEnter, Control.yieldResume, runBody, enterBody, h]

/-- Witness for C5 with the flag set at yield entry. -/
theorem yield_canceled_semantics_witness :
    Control.yieldEnter (⟨none, true⟩ : Context Nat Nat) 7 = .error ⟨⟩ ∧
      runBody (⟨none, true⟩ : Context Nat Nat) (.yieldP 7 (.doneP 1) .errP)
        = runBody ⟨none, true⟩ .errP :=
  (yield_canceled_semantics ⟨none, true⟩ 7 (.doneP 1) .errP).1 rfl

/-- C6: done is infallible: for every error type E and every value of the
return type, `Control::done` returns `Ok(Finished(arg))`; being a pure
constructor application it performs no context switch, and since an `Ok` is
never an `Err` it never returns an error. -/
theorem done_infallible (E R₂ : Type) (arg : R₂) :
    Control.done E arg = Except.ok ⟨arg⟩ :=
  rfl

/-- C7: dropping a Suspended coroutine sets the canceled flag and performs
one final switch into the body; the pending yield then takes its Canceled
branch (the error continuation `canc` runs, once), the body runs to its
terminal transfer, the drop completes, and a terminated body can never be
entered again. -/
theorem drop_suspended_cancels (c : Context Y R) (ok canc : BodyProg Y R) :
    Coroutine.drop ⟨some c, .suspended ok canc⟩ = some .terminated ∧
    enterBody { c with canceled := true } (.suspended ok canc)
      = some (runBody { c with canceled := true } canc) ∧
    (∀ c₂ : Context Y R, enterBody c₂ (.terminated : BodyPos Y R) = none) := by
  have henter : enterBody { c with canceled := true } (.suspended ok canc)
      = some (runBody { c with canceled := true } canc) := by
    simp [enterBody, Control.yieldResume]
  refine ⟨?_, henter, fun c₂ => rfl⟩
  have hterm := runBody_canceled_terminated canc { c with canceled := true } rfl
  rcases hrun : runBody { c with canceled := true } canc with ⟨c₃, pos⟩
  rw [hrun] at hterm henter
  simp only [Coroutine.drop, henter]
  simp only at hterm
  rw [hterm]

/-- C8: for every buffer base `b` and length `n ≥ 4096`, the computed stack
top is 16-byte aligned and lies within the buffer: on downward-growing stacks
it is the largest multiple of 16 at most `b + n - 1`, and on upward-growing
stacks the smallest multiple of 16 at least `b`. -/
theorem stack_top_aligned_in_buffer (base len : Nat)
    (h : STACK_MINIMUM ≤ len) :
    stackTop false base len % STACK_ALIGNMENT = 0 ∧
    stackTop false base len
      = STACK_ALIGNMENT * ((base + len - 1) / STACK_ALIGNMENT) ∧
    base ≤ stackTop false base len ∧
    stackTop false base len ≤ base + len - 1 ∧
    stackTop true base len % STACK_ALIGNMENT = 0 ∧
    stackTop true base len
      = STACK_ALIGNMENT * ((base + STACK_ALIGNMENT - 1) / STACK_ALIGNMENT) ∧
    base ≤ stackTop true base len ∧
    stackTop true base len ≤ base + len - 1 := by
  have hlen : 4096 ≤ len := h
  have hdown : stackTop false base len = 16 * ((base + len - 1) / 16) := by
    simp only [stackTop, alignOffset, STACK_ALIGNMENT, Bool.false_eq_true,
      if_false]
    split <;> omega
  have hup : stackTop true base len = 16 * ((base + 16 - 1) / 16) := by
    simp only [stackTop, alignOffset, STACK_ALIGNMENT, if_true]
    omega
  simp only [STACK_ALIGNMENT, STACK_MINIMUM]
  refine ⟨?_, ?_, ?_, ?_, ?_, ?_, ?_, ?_⟩ <;> omega

/-- Witness for C8 at base 5, length 4096. -/
theorem stack_top_aligned_in_buffer_witness :
    STACK_MINIMUM ≤ 4096 ∧ stackTop false 5 4096 % STACK_ALIGNMENT = 0 :=
  ⟨by decide, (stack_top_aligned_in_buffer 5 4096 (by decide)).1⟩

/-- C9: if during a resume the body closure returns `Err(Canceled)` directly
instead of calling done, the trampoline writes nothing into the transfer slot
that resume cleared at entry (the context comes back with `arg = none` and
the body terminated), so that resume call panics when it unwraps the empty
slot (`none`). -/
theorem body_err_resume_panics (c : Context Y R) :
    runBody { c with arg := none } (.errP : BodyProg Y R)
        = ({ c with arg := none }, .terminated) ∧
    Coroutine.resume ⟨some c, .fresh (.errP : BodyProg Y R)⟩ = none :=
  ⟨rfl, rfl⟩

/-- C10: dropping a Fresh coroutine (slot content `a`, flag clear) still runs
the body closure once: drop sets the canceled flag and switches into the
fresh body, whose first yield then takes the Canceled branch with no further
context switch (second conjunct, for any context with the flag set), the body
runs to the trampoline's terminal transfer, and the drop completes without
panicking (`some .terminated`, not `none`). -/
theorem drop_fresh_runs_body (a : Option (GeneratorState Y R))
    (prog : BodyProg Y R) :
    Coroutine.drop ⟨some ⟨a, false⟩, .fresh prog⟩ = some .terminated ∧
    (∀ (b : Option (GeneratorState Y R)) (v : Y) (ok canc : BodyProg Y R),
      runBody (⟨b, true⟩ : Context Y R) (.yieldP v ok canc)
        = runBody ⟨b, true⟩ canc) := by
  constructor
  · have hterm := runBody_canceled_terminated prog (⟨a, true⟩ : Context Y R) rfl
    rcases hrun : runBody (⟨a, true⟩ : Context Y R) prog with ⟨c₃, pos⟩
    rw [hrun] at hterm
    simp only at hterm
    simp only [Coroutine.drop, enterBody, hrun, hterm]
  · intro b v ok canc
    simp [runBody, Control.yieldEnter]

end Frenetic
